import Mathlib

/-!
Shallow embedding of `src/searcher.py` (amadeus_searcher), together with
proofs settling the frozen claims about its specification.

The Python script builds flight-search requests, queries an external REST
API, filters/reshapes the returned JSON entries, and writes raw results to
a `last_search` directory.  The embedding below translates each relevant
Python function into a Lean definition:

* `datetime.date` values become the `Date` structure with a proleptic
  Gregorian calendar (`daysInMonth`, `toOrdinal`, `nextDay`), matching
  CPython's `datetime` semantics (ordinal day counting, `MINYEAR = 1`,
  `MAXYEAR = 9999`).
* string-to-date conversion `datetime.date(*[int(p) for p in s.split('-')])`
  becomes `parseDate`: split on every dash, apply the `int()` model
  `pyInt` (whitespace stripping, optional sign, underscore-grouped
  digits — exact for ASCII input) to each part, and validate ranges; a
  raised-and-caught exception becomes `none`.
* fallible code (a Python exception that propagates) is an `Except` value;
  an exception that is caught and logged becomes the code's fallback value.
* the external HTTP API is an explicit `Api` record of response functions,
  so that "identical external API behaviour" is literally the same `Api`.
* prices (`price.grandTotal`, `price.total`) are modelled as integers;
  only their ordering relative to `max_price` matters to the program.
-/

set_option linter.unusedVariables false
set_option maxHeartbeats 1000000

namespace Amadeus

/-! ## Gregorian calendar (model of Python `datetime.date`) -/

/-- A calendar date, as CPython's `datetime.date` (year, month, day). -/
structure Date where
  year : Nat
  month : Nat
  day : Nat
deriving DecidableEq, Repr

/-- Gregorian leap-year test, as in CPython's `datetime._is_leap`. -/
def isLeap (y : Nat) : Bool :=
  (y % 4 == 0 && y % 100 != 0) || y % 400 == 0

/-- Number of days in month `m` of year `y` (months numbered 1..12). -/
def daysInMonth (y m : Nat) : Nat :=
  if m = 2 then (if isLeap y then 29 else 28)
  else if m = 4 ∨ m = 6 ∨ m = 9 ∨ m = 11 then 30
  else 31

/-- Number of days in year `y`. -/
def daysInYear (y : Nat) : Nat :=
  if isLeap y then 366 else 365

/-- Days in year `y` strictly before month `m` (0 for January). -/
def daysBeforeMonth (y : Nat) : Nat → Nat
  | 0 => 0
  | 1 => 0
  | m + 2 => daysBeforeMonth y (m + 1) + daysInMonth y (m + 1)

/-- Days strictly before January 1 of year `y`
(`datetime._days_before_year`). -/
def daysBeforeYear (y : Nat) : Nat :=
  365 * (y - 1) + (y - 1) / 4 + (y - 1) / 400 - (y - 1) / 100

/-- Proleptic Gregorian ordinal of a date (`datetime.date.toordinal`):
0001-01-01 has ordinal 1. -/
def toOrdinal (d : Date) : Nat :=
  daysBeforeYear d.year + daysBeforeMonth d.year d.month + d.day

/-- The next calendar day (rolling over month and year boundaries). -/
def nextDay (d : Date) : Date :=
  if d.day < daysInMonth d.year d.month then ⟨d.year, d.month, d.day + 1⟩
  else if d.month < 12 then ⟨d.year, d.month + 1, 1⟩
  else ⟨d.year + 1, 1, 1⟩

/-- Validity of a date: what `datetime.date.__new__` accepts, except for
the upper year bound (tracked separately as `d.year ≤ 9999`). -/
def Date.Valid (d : Date) : Prop :=
  1 ≤ d.year ∧ 1 ≤ d.month ∧ d.month ≤ 12 ∧ 1 ≤ d.day ∧ d.day ≤ daysInMonth d.year d.month

instance (d : Date) : Decidable d.Valid := by
  unfold Date.Valid; infer_instance

theorem daysInMonth_pos (y m : Nat) : 1 ≤ daysInMonth y m := by
  unfold daysInMonth
  split
  · split <;> omega
  · split <;> omega

theorem daysBeforeMonth_succ (y m : Nat) (hm : 1 ≤ m) :
    daysBeforeMonth y (m + 1) = daysBeforeMonth y m + daysInMonth y m := by
  match m, hm with
  | k + 1, _ => rfl

theorem isLeap_iff (y : Nat) :
    isLeap y = true ↔ ((y % 4 = 0 ∧ ¬y % 100 = 0) ∨ y % 400 = 0) := by
  unfold isLeap
  rw [Bool.or_eq_true, Bool.and_eq_true, beq_iff_eq, bne_iff_ne, beq_iff_eq]

theorem daysInYear_eq_ite (y : Nat) :
    daysInYear y = if (y % 4 = 0 ∧ ¬y % 100 = 0) ∨ y % 400 = 0 then 366 else 365 := by
  unfold daysInYear
  by_cases h : (y % 4 = 0 ∧ ¬y % 100 = 0) ∨ y % 400 = 0
  · rw [if_pos ((isLeap_iff y).mpr h), if_pos h]
  · rw [if_neg (fun hh => h ((isLeap_iff y).mp hh)), if_neg h]

theorem daysBeforeYear_succ (y : Nat) (hy : 1 ≤ y) :
    daysBeforeYear (y + 1) = daysBeforeYear y + daysInYear y := by
  unfold daysBeforeYear
  rw [daysInYear_eq_ite]
  split <;> omega

theorem daysBeforeMonth_13 (y : Nat) : daysBeforeMonth y 13 = daysInYear y := by
  rcases h : isLeap y with _ | _ <;>
    simp [daysBeforeMonth, daysInMonth, daysInYear, h]

/-- Advancing one day adds exactly one to the Gregorian ordinal.  This is
the lemma certifying that `toOrdinal` (used for date subtraction) and
`nextDay` (used for date ranges) agree on what "one day later" means. -/
theorem toOrdinal_nextDay (d : Date) (h : d.Valid) :
    toOrdinal (nextDay d) = toOrdinal d + 1 := by
  obtain ⟨y, m, day⟩ := d
  obtain ⟨hy, hm1, hm2, hd1, hd2⟩ := h
  unfold nextDay
  split
  · simp only [toOrdinal]
    omega
  · split
    · next hnd hlt =>
      simp only [toOrdinal] at *
      rw [daysBeforeMonth_succ y m hm1]
      omega
    · next hnd hge =>
      simp only at hnd hge hd2 hm2 hm1
      have hm : m = 12 := by omega
      subst hm
      have h31 : daysInMonth y 12 = 31 := rfl
      have h13 : daysBeforeMonth y 13 =
          daysBeforeMonth y 12 + daysInMonth y 12 := rfl
      have hday : day = 31 := by omega
      subst hday
      simp only [toOrdinal]
      rw [daysBeforeYear_succ y hy, ← daysBeforeMonth_13 y]
      have hb1 : daysBeforeMonth (y + 1) 1 = 0 := rfl
      omega

theorem nextDay_valid (d : Date) (h : d.Valid) : (nextDay d).Valid := by
  obtain ⟨y, m, day⟩ := d
  obtain ⟨hy, hm1, hm2, hd1, hd2⟩ := h
  unfold nextDay
  split
  · next hlt =>
    simp only at hlt
    exact ⟨hy, hm1, hm2, by show 1 ≤ day + 1; omega,
      by show day + 1 ≤ daysInMonth y m; omega⟩
  · split
    · next hnd hlt =>
      simp only at hnd hlt
      exact ⟨hy, by show 1 ≤ m + 1; omega, by show m + 1 ≤ 12; omega,
        le_refl 1, daysInMonth_pos y (m + 1)⟩
    · next hnd hge =>
      have h31 : daysInMonth (y + 1) 1 = 31 := rfl
      exact ⟨by show 1 ≤ y + 1; omega, le_refl 1, by show (1 : Nat) ≤ 12; omega,
        le_refl 1, by show (1 : Nat) ≤ daysInMonth (y + 1) 1; rw [h31]; omega⟩

theorem toOrdinal_iterate (d : Date) (h : d.Valid) (n : Nat) :
    toOrdinal (nextDay^[n] d) = toOrdinal d + n ∧ (nextDay^[n] d).Valid := by
  induction n with
  | zero => exact ⟨rfl, h⟩
  | succ k ih =>
    rw [Function.iterate_succ_apply']
    obtain ⟨h1, h2⟩ := ih
    refine ⟨?_, nextDay_valid _ h2⟩
    rw [toOrdinal_nextDay _ h2, h1]
    omega

/-! ## Date strings: parsing and formatting

The Python code converts a string to a date via
`datetime.date(*[int(p) for p in s.split('-')])`, catching any exception.
We model `str.split('-')` by `splitDashes` on the character list, `int`
by `pyInt`, and the `datetime.date` constructor by the range checks of
`parseDate` (`MINYEAR = 1`, `MAXYEAR = 9999`).

`pyInt` reproduces CPython's `int(str)` exactly on the ASCII repertoire:
leading and trailing whitespace is stripped (the number parser strips
the ASCII characters 0x09-0x0D and 0x20), then an
optional single `+` or `-` sign, then at least one ASCII digit, with
single underscores permitted between digits (`int('1_0') = 10`, while
`int('_1')`, `int('1_')` and `int('1__0')` raise).  CPython additionally
accepts non-ASCII decimal digits and non-ASCII whitespace through the
Unicode tables; the modelled character repertoire is ASCII, and the
theorems about the parse-failure boundary (C2, C5) carry an explicit
`AsciiStr` hypothesis delimiting it. -/

/-- Model of Python `s.split('-')` on a list of characters. -/
def splitDashes : List Char → List (List Char)
  | [] => [[]]
  | c :: rest =>
    match splitDashes rest with
    | [] => [[c]]
    | h :: t => if c = '-' then [] :: h :: t else (c :: h) :: t

/-- The ASCII characters CPython's `int(str)` strips as whitespace:
0x09-0x0D (tab, LF, VT, FF, CR) and 0x20 (space); `C isspace`, which the
number parser uses, unlike `str.isspace` does not include 0x1C-0x1F. -/
def isPySpace (c : Char) : Bool :=
  (9 ≤ c.toNat && c.toNat ≤ 13) || c.toNat = 32

/-- Strip leading and trailing `int()` whitespace. -/
def stripSpaces (cs : List Char) : List Char :=
  ((cs.dropWhile isPySpace).reverse.dropWhile isPySpace).reverse

/-- Scan the digits of an `int()` literal after its first digit,
accumulating the value; a single underscore is allowed between two
digits, anything else ends in failure (`ValueError`). -/
def digitsUndAux : Nat → List Char → Option Nat
  | acc, [] => some acc
  | acc, c :: rest =>
      if c.isDigit then digitsUndAux (acc * 10 + (c.toNat - 48)) rest
      else if c = '_' then
        match rest with
        | [] => none
        | d :: rest2 =>
            if d.isDigit then digitsUndAux (acc * 10 + (d.toNat - 48)) rest2
            else none
      else none

/-- Value of an `int()` digit group: at least one digit, single
underscores only between digits. -/
def digitsUnd : List Char → Option Nat
  | [] => none
  | c :: rest => if c.isDigit then digitsUndAux (c.toNat - 48) rest else none

/-- Model of Python `int(p)` on a split part: strip whitespace, optional
sign, digit group with underscore separators.  `none` models the
`ValueError` that the callers catch.  Exact for ASCII input; non-ASCII
decimal digits and whitespace (also accepted by CPython) are outside the
modelled repertoire. -/
def pyInt (cs : List Char) : Option Int :=
  match stripSpaces cs with
  | '+' :: rest => (digitsUnd rest).map (fun n => (n : Int))
  | '-' :: rest => (digitsUnd rest).map (fun n => -(n : Int))
  | rest => (digitsUnd rest).map (fun n => (n : Int))

/-- Model of `datetime.date(*[int(p) for p in s.split('-')])` where every
raised exception is caught by the caller: `none` is the exceptional case. -/
def parseDate (s : String) : Option Date :=
  match (splitDashes s.toList).mapM pyInt with
  | some [y, m, d] =>
      if 1 ≤ y ∧ y ≤ 9999 ∧ 1 ≤ m ∧ m ≤ 12 ∧ 1 ≤ d ∧
          d ≤ (daysInMonth y.toNat m.toNat : Int)
      then some ⟨y.toNat, m.toNat, d.toNat⟩ else none
  | _ => none

/-- A string within the repertoire on which `pyInt` is exactly
CPython's `int()`. -/
def AsciiStr (s : String) : Prop :=
  ∀ c ∈ s.toList, c.toNat < 128

instance (s : String) : Decidable (AsciiStr s) := by
  unfold AsciiStr
  infer_instance

theorem parseDate_valid {s : String} {d : Date} (h : parseDate s = some d) :
    d.Valid ∧ d.year ≤ 9999 := by
  unfold parseDate at h
  split at h
  · next y m dd heq =>
    split at h
    · next hc =>
      cases h
      obtain ⟨h1, h2, h3, h4, h5, h6⟩ := hc
      refine ⟨⟨?_, ?_, ?_, ?_, ?_⟩, ?_⟩
      · show 1 ≤ y.toNat
        omega
      · show 1 ≤ m.toNat
        omega
      · show m.toNat ≤ 12
        omega
      · show 1 ≤ dd.toNat
        omega
      · show dd.toNat ≤ daysInMonth y.toNat m.toNat
        omega
      · show y.toNat ≤ 9999
        omega
    · cases h
  · cases h

/-- Left-pad a numeral with zeros, as in `strftime` zero-padded fields. -/
def padZeros (width n : Nat) : String :=
  String.mk (List.replicate (width - (toString n).length) '0') ++ toString n

/-- Model of `d.strftime("%Y-%m-%d")` (zero-padded fields). -/
def formatDate (d : Date) : String :=
  padZeros 4 d.year ++ "-" ++ padZeros 2 d.month ++ "-" ++ padZeros 2 d.day

/-! ## Data model of the script

Mirrors of the JSON shapes consumed by `searcher.py` and of its two
dataclasses.  A flight-offers entry is modelled with exactly the fields
the script reads; its prices are integers (only their order w.r.t.
`max_price` matters).  `RawEntry` is the "raw source JSON" stored in
`SearchResult.raw_entry` and dumped to the output files. -/

/-- One flight segment: models `segment['departure']['at']` and
`segment['arrival']['at']`. -/
structure Segment where
  departureAt : String
  arrivalAt : String
deriving DecidableEq, Repr

/-- One itinerary of an offers entry (`duration`, `segments`). -/
structure Itinerary where
  duration : String
  segments : List Segment
deriving DecidableEq, Repr

/-- The `price` object of an offers entry (`grandTotal`, `currency`). -/
structure EntryPrice where
  grandTotal : Int
  currency : String
deriving DecidableEq, Repr

/-- One entry of the `data` list of a flight-offers response. -/
structure Entry where
  price : EntryPrice
  numberOfBookableSeats : Nat
  itineraries : List Itinerary
deriving DecidableEq, Repr

/-- The `price` object of a calendar (flight-dates) entry (`total`). -/
structure CalPrice where
  total : Int
deriving DecidableEq, Repr

/-- One entry of the `data` list of a flight-dates response. -/
structure CalEntry where
  departureDate : String
  price : CalPrice
deriving DecidableEq, Repr

/-- The raw JSON entry stored unmodified in a result. -/
inductive RawEntry where
  | offers (e : Entry)
  | cal (e : CalEntry)
deriving DecidableEq, Repr

/-- Dataclass `SearchResult`.  `seats : Option Nat` models
`Union[int, str]` with default `'N/A'`: `none` is the string `'N/A'`. -/
structure SearchResult where
  departures : List String
  arrivals : List String
  durations : List String
  price : Int
  currency : String
  raw_entry : RawEntry
  seats : Option Nat := none
deriving DecidableEq, Repr

/-- Dataclass `SearchRequest`, including the three attributes derived by
`__post_init__`.  `max_price : Option Int` models `int = None`. -/
structure SearchRequest where
  flight_from : String
  flight_to : String
  flight_dates : List (String × String)
  pax_count : Nat := 1
  max_result_count : Nat := 10
  max_price : Option Int := none
  search_one_way_flights : Bool
  search_return_flights : Bool
  flight_date_durations : List (String × String)
deriving DecidableEq, Repr

/-! ## `_calculate_duration` and `__post_init__` -/

/-- Model of `_calculate_duration`: parse both strings (a parse failure
is caught, logged, and yields the sentinel 0), subtract the ordinals, and
return the sentinel 0 unless the difference is positive. -/
def _calculate_duration (departure_date return_date : String) : Nat :=
  match parseDate departure_date, parseDate return_date with
  | some departure_dt, some return_dt =>
      let duration : Int := (toOrdinal return_dt : Int) - (toOrdinal departure_dt : Int)
      if duration ≤ 0 then 0 else duration.toNat
  | _, _ => 0

/-- Model of `SearchRequest.__post_init__`'s loop over `flight_dates`:
computes `(search_one_way_flights, search_return_flights,
flight_date_durations)`, or fails like the `raise ValueError` on the
first pair with a non-empty return date whose duration is the 0
sentinel. -/
def postInit : List (String × String) → Except String (Bool × Bool × List (String × String))
  | [] => Except.ok (false, false, [])
  | (departure_date, return_date) :: rest =>
      if return_date = "" then
        (postInit rest).map fun (ow, rf, l) => (true, rf, (departure_date, "") :: l)
      else
        let duration := _calculate_duration departure_date return_date
        if duration = 0 then
          Except.error "ValueError: Bad departure/return dates pair"
        else
          (postInit rest).map fun (ow, rf, l) =>
            (ow, true, (departure_date, toString duration) :: l)

/-- Model of constructing `SearchRequest(...)`: runs `__post_init__`;
`Except.error` is the `ValueError` it can raise. -/
def mkSearchRequest (flight_from flight_to : String)
    (flight_dates : List (String × String)) (pax_count : Nat := 1)
    (max_result_count : Nat := 10) (max_price : Option Int := none) :
    Except String SearchRequest :=
  (postInit flight_dates).map fun (ow, rf, fdd) =>
    { flight_from := flight_from, flight_to := flight_to,
      flight_dates := flight_dates, pax_count := pax_count,
      max_result_count := max_result_count, max_price := max_price,
      search_one_way_flights := ow, search_return_flights := rf,
      flight_date_durations := fdd }

/-! ## The external API as an oracle

The script talks to a fixed REST endpoint through `requests`.  We model
the external world as a record of total response functions: `auth` is the
token produced by the OAuth call, and the two search endpoints map a full
query (including the bearer token sent with it) to the parsed JSON body
of their response.  Responses are modelled with exactly the fields the
script reads; a missing `data` key is `none`. -/

/-- Query-string parameters and headers of a GET to
`/v2/shopping/flight-offers`. -/
structure OffersQuery where
  originLocationCode : String
  destinationLocationCode : String
  departureDate : String
  adults : Nat
  max : Nat
  returnDate : Option String
  token : String
deriving DecidableEq, Repr

/-- Parsed JSON body of a flight-offers response; `data = none` models a
response lacking the `data` key. -/
structure OffersResponse where
  data : Option (List Entry)

/-- Query-string parameters and headers of a GET to
`/v1/shopping/flight-dates`.  `duration = none` and `maxPrice = none`
model the absent query parameters. -/
structure CheapestQuery where
  origin : String
  destination : String
  departureDate : String
  duration : Option String
  oneWay : Bool
  maxPrice : Option Int
  token : String
deriving DecidableEq, Repr

/-- Parsed JSON body of a flight-dates response; `currency` models
`raw_result['meta']['currency']` (read only when `data` is present). -/
structure CheapestResponse where
  data : Option (List CalEntry)
  currency : String

/-- The external API: deterministic response behaviour. -/
structure Api where
  auth : String
  offers : OffersQuery → OffersResponse
  cheapest : CheapestQuery → CheapestResponse

/-! ## `search_offers` -/

/-- Truthiness of the Python value held by `max_price` (`None` and `0`
are falsy). -/
def mpTruthy : Option Int → Bool
  | none => false
  | some v => decide (v ≠ 0)

/-- The `break` condition of the entry loop:
`search_request.max_price and entry['price']['grandTotal'] > search_request.max_price`. -/
def breakEntry (max_price : Option Int) (e : Entry) : Bool :=
  match max_price with
  | none => false
  | some v => decide (v ≠ 0) && decide (v < e.price.grandTotal)

/-- Building one `SearchResult` from an offers entry.  `none` models the
uncaught `IndexError` raised by `i['segments'][0]` / `i['segments'][-1]`
on an itinerary with no segments. -/
def entryToResult (e : Entry) : Option SearchResult :=
  match e.itineraries.mapM (fun i => (i.segments.head?).map (fun sg => sg.departureAt)),
        e.itineraries.mapM (fun i => (i.segments.getLast?).map (fun sg => sg.arrivalAt)) with
  | some deps, some arrs =>
      some { departures := deps, arrivals := arrs,
             durations := e.itineraries.map (fun i => i.duration),
             price := e.price.grandTotal, currency := e.price.currency,
             raw_entry := RawEntry.offers e,
             seats := some e.numberOfBookableSeats }
  | _, _ => none

/-- The total value `entryToResult` takes on well-formed entries (every
itinerary has at least one segment). -/
def resultOfEntry (e : Entry) : SearchResult :=
  { departures := e.itineraries.map (fun i => ((i.segments.head?).map (fun sg => sg.departureAt)).getD "")
  , arrivals := e.itineraries.map (fun i => ((i.segments.getLast?).map (fun sg => sg.arrivalAt)).getD "")
  , durations := e.itineraries.map (fun i => i.duration)
  , price := e.price.grandTotal, currency := e.price.currency
  , raw_entry := RawEntry.offers e
  , seats := some e.numberOfBookableSeats }

/-- An entry on which `entryToResult` cannot raise. -/
def WFEntry (e : Entry) : Prop :=
  ∀ i ∈ e.itineraries, i.segments ≠ []

/-- The `for entry in raw_result['data']` loop of `search_offers`:
appends result records until `breakEntry` fires; an `IndexError` while
building a record propagates. -/
def collectEntries (max_price : Option Int) : List Entry → Except String (List SearchResult)
  | [] => Except.ok []
  | e :: rest =>
      if breakEntry max_price e then Except.ok []
      else
        match entryToResult e with
        | none => Except.error "IndexError"
        | some r => (collectEntries max_price rest).map (fun rs => r :: rs)

/-- The query `search_offers` sends for one date pair (its `params` dict
plus the bearer token; `returnDate` present only for a truthy return
date). -/
def offersQuery (req : SearchRequest) (p : String × String) (token : String) : OffersQuery :=
  { originLocationCode := req.flight_from
  , destinationLocationCode := req.flight_to
  , departureDate := p.1
  , adults := req.pax_count
  , max := req.max_result_count
  , returnDate := if p.2 = "" then none else some p.2
  , token := token }

/-- Model of `search_offers`: one GET per date pair; a response without
`data` contributes nothing; entries are collected in API order subject to
the `max_price` break; the lists accumulate in date-pair order. -/
def search_offers (api : Api) (token : String) (req : SearchRequest) :
    Except String (List SearchResult) :=
  (req.flight_dates.mapM (fun p =>
      match (api.offers (offersQuery req p token)).data with
      | none => Except.ok []
      | some entries => collectEntries req.max_price entries)).map List.flatten

/-! ## `search_cheapest` -/

/-- The query `search_cheapest` sends (its `params` dict plus the bearer
token): comma-joined departure dates, either per-date durations or the
one-way flag, and `maxPrice` only when `max_price` is truthy. -/
def cheapestQuery (req : SearchRequest) (token : String) : CheapestQuery :=
  { origin := req.flight_from
  , destination := req.flight_to
  , departureDate := String.intercalate "," (req.flight_date_durations.map (fun d => d.1))
  , duration := if req.search_return_flights then
      some (String.intercalate "," (req.flight_date_durations.map (fun d => d.2))) else none
  , oneWay := !req.search_return_flights
  , maxPrice := if mpTruthy req.max_price then req.max_price else none
  , token := token }

/-- Model of `search_cheapest`: rejects mixed one-way/return batches by
returning `[]`, returns `[]` on a response without `data`, and otherwise
maps every calendar entry to a result record with `'N/A'` placeholders. -/
def search_cheapest (api : Api) (token : String) (req : SearchRequest) :
    List SearchResult :=
  if req.search_return_flights && req.search_one_way_flights then []
  else
    let raw_result := api.cheapest (cheapestQuery req token)
    match raw_result.data with
    | none => []
    | some entries =>
        entries.map (fun e =>
          { departures := [e.departureDate], arrivals := ["N/A"],
            durations := ["N/A"], price := e.price.total,
            currency := raw_result.currency,
            raw_entry := RawEntry.cal e, seats := none })

/-! ## `_date_range` and `_do_search_one_way` -/

/-- Model of `base_dt + i * one_day`: `i` calendar days after `base`, or
`none` for the `OverflowError` raised past `date.max` (9999-12-31). -/
def dateAdd (base : Date) (i : Nat) : Option Date :=
  let r := nextDay^[i] base
  if r.year ≤ 9999 then some r else none

/-- Model of `_date_range`: an unparsable start date is caught and
yields `[]`; otherwise the `day_count` consecutive dates from the start
date, formatted, with `Except.error` for an uncaught `OverflowError`. -/
def _date_range (start_date : String) (day_count : Nat) : Except String (List String) :=
  match parseDate start_date with
  | none => Except.ok []
  | some base_dt =>
      match (List.range day_count).mapM (fun i => (dateAdd base_dt i).map formatDate) with
      | some l => Except.ok l
      | none => Except.error "OverflowError"

/-- Python `dict` insertion on an insertion-ordered association list,
with dataclass equality on the declared `SearchRequest` fields. -/
def reqKeyEq (a b : SearchRequest) : Bool :=
  decide (a.flight_from = b.flight_from ∧ a.flight_to = b.flight_to ∧
    a.flight_dates = b.flight_dates ∧ a.pax_count = b.pax_count ∧
    a.max_result_count = b.max_result_count ∧ a.max_price = b.max_price)

/-- `d[k] = v` on the association-list model of a Python dict: replace
the value at the (unique) matching key, else append a new entry. -/
def dictInsert (l : List (SearchRequest × List SearchResult))
    (k : SearchRequest) (v : List SearchResult) :
    List (SearchRequest × List SearchResult) :=
  match l with
  | [] => [(k, v)]
  | q :: t => if reqKeyEq q.1 k then (q.1, v) :: t else q :: dictInsert t k v

/-- Model of `_do_search_one_way`.  The `token` parameter is immediately
shadowed by `token = auth()`, exactly as in the source.  The set
comprehension `{(d, '') for d in date_range}` is modelled as the list of
(distinct) dates in generation order. -/
def _do_search_one_way (api : Api) (token : String) (start_date : String)
    (duration : Nat) (origin : String) (destinations : List String) :
    Except String (List (SearchRequest × List SearchResult)) := do
  let token := api.auth
  let date_range ← _date_range start_date duration
  destinations.foldlM (fun result destination => do
    let request ← mkSearchRequest origin destination
      (date_range.map (fun d => (d, "")))
    let offers ← search_offers api token request
    pure (dictInsert result request offers)) []

/-! ## `do_search`: the `last_search` output directory

The filesystem side of `do_search` is modelled explicitly: a directory is
an association list from file name to file content, and a file's content
is the list `[o.raw_entry for o in offers]` that `json.dumps` serialises.
`do_search` first deletes the directory if it exists and recreates it
empty (`shutil.rmtree` + `os.mkdir`), then walks the functor's result
dict writing one file per request. -/

/-- Directory contents: file name to the raw-entry list dumped into it. -/
abbrev SearchDir := List (String × List RawEntry)

/-- Writing a file: overwrite an existing name, else append a new file. -/
def writeFile (dir : SearchDir) (name : String) (content : List RawEntry) : SearchDir :=
  match dir with
  | [] => [(name, content)]
  | q :: t => if q.1 = name then (name, content) :: t else q :: writeFile t name content

/-- `dir / name` read back, `none` when the file does not exist. -/
def dirLookup (dir : SearchDir) (name : String) : Option (List RawEntry) :=
  (dir.find? (fun q => decide (q.1 = name))).map (fun q => q.2)

/-- `last_search_results_dir / f'{from}-{to}-{counter}.json'`. -/
def resultsFileName (req : SearchRequest) (counter : Nat) : String :=
  req.flight_from ++ "-" ++ req.flight_to ++ "-" ++ toString counter ++ ".json"

/-- `counters.get(request, 0)` keyed by dataclass equality. -/
def counterGet (cs : List (SearchRequest × Nat)) (r : SearchRequest) : Nat :=
  ((cs.find? (fun q => reqKeyEq q.1 r)).map (fun q => q.2)).getD 0

/-- `counters[request] = c`: replace at the matching key, else append. -/
def counterSet (cs : List (SearchRequest × Nat)) (r : SearchRequest) (c : Nat) :
    List (SearchRequest × Nat) :=
  match cs with
  | [] => [(r, c)]
  | q :: t => if reqKeyEq q.1 r then (q.1, c) :: t else q :: counterSet t r c

/-- The body of `do_search`'s loop for one `(request, offers)` dict item:
bump the per-request counter and write the raw entries of the offers to
the counter-named file. -/
def doSearchStep (st : SearchDir × List (SearchRequest × Nat))
    (item : SearchRequest × List SearchResult) :
    SearchDir × List (SearchRequest × Nat) :=
  let c := counterGet st.2 item.1 + 1
  let cs := counterSet st.2 item.1 c
  (writeFile st.1 (resultsFileName item.1 c) (item.2.map (fun o => o.raw_entry)), cs)

/-- Model of `if last_search_results_dir.is_dir(): shutil.rmtree(...)`
followed by `os.mkdir(...)`: whatever was there before, the run starts
from an empty directory. -/
def prepareDir : Option SearchDir → SearchDir
  | some _ => []
  | none => []

/-- The filesystem effect of one `do_search` run: `prior` is the state of
the `last_search` directory before the run (`none` = absent), `results`
the items of the dict returned by the search functor, in iteration
order.  Returns the directory contents after the run. -/
def do_search_files (prior : Option SearchDir)
    (results : List (SearchRequest × List SearchResult)) : SearchDir :=
  (results.foldl doSearchStep (prepareDir prior, [])).1

/-! ## Helper lemmas -/

theorem mapM_option_eq_map {α β : Type} (l : List α) (f : α → Option β) (g : α → β)
    (h : ∀ x ∈ l, f x = some (g x)) : l.mapM f = some (l.map g) := by
  induction l with
  | nil => rfl
  | cons a t ih =>
    rw [List.mapM_cons, h a (List.mem_cons_self a t),
      ih (fun x hx => h x (List.mem_cons_of_mem a hx))]
    rfl

theorem mapM_except_eq_map {α β : Type} (l : List α) (f : α → Except String β) (g : α → β)
    (h : ∀ x ∈ l, f x = Except.ok (g x)) : l.mapM f = Except.ok (l.map g) := by
  induction l with
  | nil => rfl
  | cons a t ih =>
    rw [List.mapM_cons, h a (List.mem_cons_self a t),
      ih (fun x hx => h x (List.mem_cons_of_mem a hx))]
    rfl

theorem exceptToOption_map {ε α β : Type} (f : α → β) (x : Except ε α) :
    (x.map f).toOption = x.toOption.map f := by
  cases x <;> rfl

theorem getLast?_map_getD {α : Type} (f : α → String) (s : α) (ss : List α) :
    Option.map f (s :: ss).getLast? = some ((Option.map f (s :: ss).getLast?).getD "") := by
  induction ss generalizing s with
  | nil => rfl
  | cons b bs ih => rw [List.getLast?_cons_cons]; exact ih b

theorem entryToResult_wf (e : Entry) (h : WFEntry e) :
    entryToResult e = some (resultOfEntry e) := by
  unfold entryToResult
  rw [mapM_option_eq_map _ _
      (fun i => ((i.segments.head?).map (fun sg => sg.departureAt)).getD "") ?hd,
    mapM_option_eq_map _ _
      (fun i => ((i.segments.getLast?).map (fun sg => sg.arrivalAt)).getD "") ?ha]
  · rfl
  case hd =>
    intro i hi
    cases hs : i.segments with
    | nil => exact absurd hs (h i hi)
    | cons s ss => simp [hs]
  case ha =>
    intro i hi
    cases hs : i.segments with
    | nil => exact absurd hs (h i hi)
    | cons s ss =>
      dsimp only
      rw [hs]
      exact getLast?_map_getD _ s ss

theorem breakEntry_of_falsy (mp : Option Int) (hmp : mpTruthy mp = false) (e : Entry) :
    breakEntry mp e = false := by
  cases mp with
  | none => rfl
  | some v =>
    have hv : decide (v ≠ 0) = false := hmp
    show (decide (v ≠ 0) && decide (v < e.price.grandTotal)) = false
    rw [hv, Bool.false_and]

theorem collectEntries_of_falsy (mp : Option Int) (hmp : mpTruthy mp = false)
    (es : List Entry) (hwf : ∀ e ∈ es, WFEntry e) :
    collectEntries mp es = Except.ok (es.map resultOfEntry) := by
  induction es with
  | nil => rfl
  | cons e t ih =>
    show (if breakEntry mp e then Except.ok [] else
        match entryToResult e with
        | none => Except.error "IndexError"
        | some r => (collectEntries mp t).map (fun rs => r :: rs)) = _
    rw [breakEntry_of_falsy mp hmp e, if_neg (by simp),
      entryToResult_wf e (hwf e (List.mem_cons_self e t)),
      ih (fun x hx => hwf x (List.mem_cons_of_mem e hx))]
    rfl

theorem collectEntries_of_truthy (v : Int) (hv : v ≠ 0)
    (es : List Entry) (hwf : ∀ e ∈ es, WFEntry e) :
    collectEntries (some v) es =
      Except.ok ((es.takeWhile (fun e => decide (e.price.grandTotal ≤ v))).map resultOfEntry) := by
  induction es with
  | nil => rfl
  | cons e t ih =>
    have hbr : breakEntry (some v) e = decide (v < e.price.grandTotal) := by
      show (decide (v ≠ 0) && decide (v < e.price.grandTotal)) = _
      rw [decide_eq_true (show v ≠ 0 from hv), Bool.true_and]
    show (if breakEntry (some v) e then Except.ok [] else
        match entryToResult e with
        | none => Except.error "IndexError"
        | some r => (collectEntries (some v) t).map (fun rs => r :: rs)) = _
    rw [hbr]
    by_cases hlt : v < e.price.grandTotal
    · rw [if_pos (by simpa using hlt), List.takeWhile_cons_of_neg (by simpa using hlt)]
      rfl
    · rw [if_neg (by simpa using hlt),
        List.takeWhile_cons_of_pos (by simpa using not_lt.mp hlt),
        entryToResult_wf e (hwf e (List.mem_cons_self e t)),
        ih (fun x hx => hwf x (List.mem_cons_of_mem e hx))]
      rfl

theorem postInit_cons (dep ret : String) (t : List (String × String)) :
    postInit ((dep, ret) :: t) =
      if ret = "" then
        (postInit t).map (fun x => (true, x.2.1, (dep, "") :: x.2.2))
      else if _calculate_duration dep ret = 0 then
        Except.error "ValueError: Bad departure/return dates pair"
      else
        (postInit t).map (fun x =>
          (x.1, true, (dep, toString (_calculate_duration dep ret)) :: x.2.2)) := by
  rfl

theorem postInit_error_iff (dates : List (String × String)) :
    (postInit dates).toOption = none ↔
      ∃ p ∈ dates, p.2 ≠ "" ∧ _calculate_duration p.1 p.2 = 0 := by
  induction dates with
  | nil => simp [postInit, Except.toOption]
  | cons p t ih =>
    obtain ⟨dep, ret⟩ := p
    rw [postInit_cons]
    by_cases hr : ret = ""
    · rw [if_pos hr, exceptToOption_map, Option.map_eq_none', ih]
      subst hr
      simp [List.exists_mem_cons_iff]
    · rw [if_neg hr]
      by_cases hd : _calculate_duration dep ret = 0
      · rw [if_pos hd]
        constructor
        · intro _
          exact ⟨(dep, ret), List.mem_cons_self _ _, hr, hd⟩
        · intro _
          rfl
      · rw [if_neg hd, exceptToOption_map, Option.map_eq_none', ih]
        simp [List.exists_mem_cons_iff, hr, hd]

theorem postInit_ok_spec (dates : List (String × String)) (ow rf : Bool)
    (l : List (String × String)) (h : postInit dates = Except.ok (ow, rf, l)) :
    l = dates.map (fun p => if p.2 = "" then (p.1, "")
        else (p.1, toString (_calculate_duration p.1 p.2))) ∧
    (ow = true ↔ ∃ p ∈ dates, p.2 = "") ∧
    (rf = true ↔ ∃ p ∈ dates, p.2 ≠ "") := by
  induction dates generalizing ow rf l with
  | nil =>
    cases h
    simp
  | cons p t ih =>
    obtain ⟨dep, ret⟩ := p
    rw [postInit_cons] at h
    by_cases hr : ret = ""
    · rw [if_pos hr] at h
      cases hp : postInit t with
      | error e =>
        rw [hp] at h
        cases h
      | ok trip =>
        rw [hp] at h
        cases h
        obtain ⟨hl, how, hrf⟩ := ih _ _ _ hp
        subst hr
        refine ⟨?_, ?_, ?_⟩
        · rw [List.map_cons, ← hl]
          simp
        · simp [List.exists_mem_cons_iff]
        · simp [List.exists_mem_cons_iff, hrf]
    · rw [if_neg hr] at h
      by_cases hd : _calculate_duration dep ret = 0
      · rw [if_pos hd] at h
        cases h
      · rw [if_neg hd] at h
        cases hp : postInit t with
        | error e =>
          rw [hp] at h
          cases h
        | ok trip =>
          rw [hp] at h
          cases h
          obtain ⟨hl, how, hrf⟩ := ih _ _ _ hp
          refine ⟨?_, ?_, ?_⟩
          · rw [List.map_cons, ← hl]
            simp [hr]
          · simp [List.exists_mem_cons_iff, how, hr]
          · simp [List.exists_mem_cons_iff, hr]

theorem mkSearchRequest_ok {f t : String} {dates : List (String × String)}
    {pax mr : Nat} {mp : Option Int} {req : SearchRequest}
    (h : mkSearchRequest f t dates pax mr mp = Except.ok req) :
    postInit dates = Except.ok (req.search_one_way_flights, req.search_return_flights,
      req.flight_date_durations) ∧
    req.flight_from = f ∧ req.flight_to = t ∧ req.flight_dates = dates ∧
    req.pax_count = pax ∧ req.max_result_count = mr ∧ req.max_price = mp := by
  unfold mkSearchRequest at h
  cases hp : postInit dates with
  | error e =>
    rw [hp] at h
    cases h
  | ok trip =>
    rw [hp] at h
    cases h
    exact ⟨rfl, rfl, rfl, rfl, rfl, rfl, rfl⟩

/-! ## Lemmas about the `do_search` filesystem model -/

/-- The tuple of declared dataclass fields compared by `__eq__`. -/
def keyOf (r : SearchRequest) :
    String × String × List (String × String) × Nat × Nat × Option Int :=
  (r.flight_from, r.flight_to, r.flight_dates, r.pax_count, r.max_result_count, r.max_price)

theorem reqKeyEq_iff (a b : SearchRequest) : reqKeyEq a b = true ↔ keyOf a = keyOf b := by
  simp [reqKeyEq, keyOf, Prod.ext_iff]

theorem keyOf_ne_of_reqKeyEq_false {a b : SearchRequest} (h : reqKeyEq a b = false) :
    keyOf a ≠ keyOf b := by
  intro hk
  rw [(reqKeyEq_iff a b).mpr hk] at h
  cases h

theorem counterGet_cons (q : SearchRequest × Nat) (t : List (SearchRequest × Nat))
    (r : SearchRequest) :
    counterGet (q :: t) r = if reqKeyEq q.1 r then q.2 else counterGet t r := by
  unfold counterGet
  rcases h : reqKeyEq q.1 r with _ | _
  · rw [List.find?_cons_of_neg _ (by simp [h]), if_neg (by simp [h])]
  · rw [List.find?_cons_of_pos _ (by simp [h]), if_pos (by simp [h])]
    rfl

theorem counterGet_set_ne (cs : List (SearchRequest × Nat)) (r r' : SearchRequest)
    (c : Nat) (hk : keyOf r ≠ keyOf r') :
    counterGet (counterSet cs r c) r' = counterGet cs r' := by
  induction cs with
  | nil =>
    show counterGet [(r, c)] r' = counterGet [] r'
    rw [counterGet_cons]
    rw [if_neg (by simp [reqKeyEq_iff]; exact hk)]
  | cons q t ih =>
    show counterGet (if reqKeyEq q.1 r then (q.1, c) :: t else q :: counterSet t r c) r' = _
    rcases hq : reqKeyEq q.1 r with _ | _
    · rw [if_neg (by simp), counterGet_cons, counterGet_cons, ih]
    · rw [if_pos (by simp), counterGet_cons, counterGet_cons]
      have hqr' : reqKeyEq q.1 r' = false := by
        rcases hqr : reqKeyEq q.1 r' with _ | _
        · rfl
        · exact absurd (((reqKeyEq_iff q.1 r).mp hq).symm.trans ((reqKeyEq_iff q.1 r').mp hqr))
            hk
      rw [hqr']
      simp

theorem dirLookup_cons (q : String × List RawEntry) (t : SearchDir) (x : String) :
    dirLookup (q :: t) x = if q.1 = x then some q.2 else dirLookup t x := by
  unfold dirLookup
  rcases h : decide (q.1 = x) with _ | _
  · rw [List.find?_cons_of_neg _ (by simp [h]), if_neg (by simpa using h)]
  · rw [List.find?_cons_of_pos _ (by simp [h]), if_pos (by simpa using h)]
    rfl

theorem dirLookup_writeFile (dir : SearchDir) (n : String) (c : List RawEntry) (x : String) :
    dirLookup (writeFile dir n c) x = if x = n then some c else dirLookup dir x := by
  induction dir with
  | nil =>
    show dirLookup [(n, c)] x = _
    rw [dirLookup_cons]
    show (if n = x then some c else dirLookup [] x) = _
    by_cases h : x = n
    · rw [if_pos (h.symm), if_pos h]
    · rw [if_neg (fun hh => h hh.symm), if_neg h]
  | cons q t ih =>
    show dirLookup (if q.1 = n then (n, c) :: t else q :: writeFile t n c) x = _
    by_cases hq : q.1 = n
    · rw [if_pos hq, dirLookup_cons]
      by_cases hx : x = n
      · rw [if_pos hx.symm, if_pos hx]
      · rw [if_neg (fun hh => hx hh.symm), if_neg hx, dirLookup_cons,
          if_neg (fun hh => hx (hq ▸ hh).symm)]
    · rw [if_neg hq, dirLookup_cons, dirLookup_cons]
      by_cases hqx : q.1 = x
      · have hxn : ¬x = n := fun hh => hq (hqx.trans hh)
        rw [if_pos hqx, if_neg hxn, if_pos hqx]
      · rw [if_neg hqx, ih]
        by_cases hx : x = n
        · rw [if_pos hx, if_pos hx]
        · rw [if_neg hx, if_neg hx, if_neg hqx]

theorem writeFile_names (dir : SearchDir) (n : String) (c : List RawEntry) :
    (writeFile dir n c).map (fun q => q.1) =
      if n ∈ dir.map (fun q => q.1) then dir.map (fun q => q.1)
      else dir.map (fun q => q.1) ++ [n] := by
  induction dir with
  | nil => simp [writeFile]
  | cons q t ih =>
    show (if q.1 = n then (n, c) :: t else q :: writeFile t n c).map (fun q => q.1) = _
    by_cases hq : q.1 = n
    · rw [if_pos hq, List.map_cons, List.map_cons,
        if_pos (by rw [hq]; exact List.mem_cons_self _ _), hq]
    · rw [if_neg hq, List.map_cons, List.map_cons, ih]
      by_cases hn : n ∈ t.map (fun q => q.1)
      · rw [if_pos hn, if_pos (List.mem_cons_of_mem _ hn)]
      · rw [if_neg hn, if_neg (by simp [hn]; exact fun hh => hq hh.symm)]
        rfl

/-- The write that `doSearchStep` performs when the counter is fresh
(counter value 1). -/
def simpleStep (dir : SearchDir) (item : SearchRequest × List SearchResult) : SearchDir :=
  writeFile dir (resultsFileName item.1 1) (item.2.map (fun o => o.raw_entry))

/-- With pairwise-distinct dict keys (as in any Python dict iteration),
every counter lookup is fresh, so every file is written with counter 1. -/
theorem doSearch_foldl_simple (results : List (SearchRequest × List SearchResult))
    (dir : SearchDir) (cs : List (SearchRequest × Nat))
    (hfresh : ∀ it ∈ results, counterGet cs it.1 = 0)
    (hkeys : results.Pairwise (fun a b => reqKeyEq a.1 b.1 = false)) :
    (results.foldl doSearchStep (dir, cs)).1 = results.foldl simpleStep dir := by
  induction results generalizing dir cs with
  | nil => rfl
  | cons it t ih =>
    obtain ⟨hhd, htl⟩ := List.pairwise_cons.mp hkeys
    have h0 : counterGet cs it.1 = 0 := hfresh it (List.mem_cons_self _ _)
    have hstep : doSearchStep (dir, cs) it = (simpleStep dir it, counterSet cs it.1 1) := by
      unfold doSearchStep simpleStep
      rw [h0]
    rw [List.foldl_cons, List.foldl_cons, hstep]
    apply ih
    · intro it' hit'
      rw [counterGet_set_ne cs it.1 it'.1 1
        (keyOf_ne_of_reqKeyEq_false (hhd it' hit'))]
      exact hfresh it' (List.mem_cons_of_mem _ hit')
    · exact htl

/-- The content of the last dict item whose output file is named `x`. -/
def lastNamed : List (SearchRequest × List SearchResult) → String → Option (List RawEntry)
  | [], _ => none
  | it :: t, x =>
      match lastNamed t x with
      | some c => some c
      | none =>
          if resultsFileName it.1 1 = x then some (it.2.map (fun o => o.raw_entry))
          else none

theorem dirLookup_foldl_simple (results : List (SearchRequest × List SearchResult))
    (dir : SearchDir) (x : String) :
    dirLookup (results.foldl simpleStep dir) x =
      match lastNamed results x with
      | some c => some c
      | none => dirLookup dir x := by
  induction results generalizing dir with
  | nil => rfl
  | cons it t ih =>
    rw [List.foldl_cons, ih]
    show _ = (match (match lastNamed t x with
        | some c => some c
        | none => if resultsFileName it.1 1 = x then some (it.2.map (fun o => o.raw_entry))
            else none) with
      | some c => some c
      | none => dirLookup dir x)
    cases hln : lastNamed t x with
    | some c => rfl
    | none =>
      show dirLookup (simpleStep dir it) x = _
      unfold simpleStep
      rw [dirLookup_writeFile]
      by_cases hx : resultsFileName it.1 1 = x
      · rw [if_pos hx.symm, if_pos hx]
      · rw [if_neg (fun hh => hx hh.symm), if_neg hx]

/-- First-occurrence deduplication of a list of names. -/
def dedupFirst (l : List String) : List String :=
  l.foldl (fun acc n => if n ∈ acc then acc else acc ++ [n]) []

theorem names_foldl_simple (results : List (SearchRequest × List SearchResult))
    (dir : SearchDir) :
    (results.foldl simpleStep dir).map (fun q => q.1) =
      results.foldl (fun acc it => if resultsFileName it.1 1 ∈ acc then acc
        else acc ++ [resultsFileName it.1 1]) (dir.map (fun q => q.1)) := by
  induction results generalizing dir with
  | nil => rfl
  | cons it t ih =>
    rw [List.foldl_cons, List.foldl_cons, ih]
    unfold simpleStep
    rw [writeFile_names dir (resultsFileName it.1 1) (it.2.map (fun o => o.raw_entry))]

instance (e : Entry) : Decidable (WFEntry e) := by
  unfold WFEntry
  infer_instance

/-! ## Concrete sample data used by witnesses and counterexamples -/

def segA : Segment := { departureAt := "2024-05-01T10:00", arrivalAt := "2024-05-01T13:00" }

def itinA : Itinerary := { duration := "PT3H", segments := [segA] }

def entryA : Entry :=
  { price := { grandTotal := 100, currency := "EUR" },
    numberOfBookableSeats := 3, itineraries := [itinA] }

def segB : Segment := { departureAt := "2024-05-01T15:00", arrivalAt := "2024-05-01T19:00" }

def itinB : Itinerary := { duration := "PT4H", segments := [segB] }

def entryB : Entry :=
  { price := { grandTotal := 500, currency := "EUR" },
    numberOfBookableSeats := 5, itineraries := [itinB] }

/-- An API returning two offers (prices 100 and 500, ascending) for every
offers query, and no `data` key on the calendar endpoint. -/
def apiTwoOffers : Api :=
  { auth := "fresh-token"
  , offers := fun _ => { data := some [entryA, entryB] }
  , cheapest := fun _ => { data := none, currency := "EUR" } }

/-- An API whose responses never carry a `data` key. -/
def apiNoData : Api :=
  { auth := "fresh-token"
  , offers := fun _ => { data := none }
  , cheapest := fun _ => { data := none, currency := "EUR" } }

def reqJan : SearchRequest :=
  { flight_from := "SVO", flight_to := "JFK", flight_dates := [("2024-01-01", "")],
    search_one_way_flights := true, search_return_flights := false,
    flight_date_durations := [("2024-01-01", "")] }

def reqFeb : SearchRequest :=
  { flight_from := "SVO", flight_to := "JFK", flight_dates := [("2024-02-01", "")],
    search_one_way_flights := true, search_return_flights := false,
    flight_date_durations := [("2024-02-01", "")] }

def reqCapped : SearchRequest :=
  { flight_from := "SVO", flight_to := "JFK", flight_dates := [("2024-01-01", "")],
    max_price := some 200,
    search_one_way_flights := true, search_return_flights := false,
    flight_date_durations := [("2024-01-01", "")] }

/-- The request a batch row `SVO,JFK` with a one-way pair and a
space-padded return date constructs: `int()` strips the space and the
trip lasts 3 days. -/
def reqSpace : SearchRequest :=
  { flight_from := "SVO", flight_to := "JFK",
    flight_dates := [("2024-01-01", ""), ("2024-01-02", " 2024-01-05")],
    search_one_way_flights := true, search_return_flights := true,
    flight_date_durations := [("2024-01-01", ""), ("2024-01-02", "3")] }

def reqMixed : SearchRequest :=
  { flight_from := "SVO", flight_to := "JFK",
    flight_dates := [("2024-01-01", ""), ("2024-01-01", "2024-01-05")],
    search_one_way_flights := true, search_return_flights := true,
    flight_date_durations := [("2024-01-01", ""), ("2024-01-01", "4")] }

/-! ## The claims -/

/-- Claim C1: for every `SearchRequest` with `max_price` set (truthy, as
`if search_request.max_price` reads it) and every API whose offers
responses list their entries in ascending price order, `search_offers`
accepts entries for each date in API-returned order and stops at the
first entry whose price exceeds `max_price`, excluding that entry and all
subsequent entries of that response: each response contributes exactly
the maximal prefix of entries with price at most `max_price`. -/
theorem search_offers_price_break (api : Api) (token : String) (req : SearchRequest)
    (v : Int) (hmp : req.max_price = some v) (hv : v ≠ 0)
    (hwf : ∀ p ∈ req.flight_dates, ∀ es,
      (api.offers (offersQuery req p token)).data = some es → ∀ e ∈ es, WFEntry e)
    (hasc : ∀ p ∈ req.flight_dates, ∀ es,
      (api.offers (offersQuery req p token)).data = some es →
      es.Pairwise (fun a b => a.price.grandTotal ≤ b.price.grandTotal)) :
    search_offers api token req = Except.ok
      ((req.flight_dates.map (fun p =>
        match (api.offers (offersQuery req p token)).data with
        | none => []
        | some es =>
            (es.takeWhile (fun e => decide (e.price.grandTotal ≤ v))).map
              resultOfEntry)).flatten) := by
  unfold search_offers
  rw [hmp]
  rw [mapM_except_eq_map _ _ (fun p =>
      match (api.offers (offersQuery req p token)).data with
      | none => []
      | some es =>
          (es.takeWhile (fun e => decide (e.price.grandTotal ≤ v))).map resultOfEntry)]
  · rfl
  · intro p hp
    dsimp only
    cases hdata : (api.offers (offersQuery req p token)).data with
    | none => rfl
    | some es =>
      show collectEntries (some v) es = _
      rw [collectEntries_of_truthy v hv es (hwf p hp es hdata)]

/-- C1 witness: with `max_price = 200` and ascending prices `[100, 500]`,
only the cheap offer is collected; the price break drops the rest. -/
theorem search_offers_price_break_witness :
    search_offers apiTwoOffers "tok" reqCapped = Except.ok
      ((reqCapped.flight_dates.map (fun p =>
        match (apiTwoOffers.offers (offersQuery reqCapped p "tok")).data with
        | none => []
        | some es =>
            (es.takeWhile (fun e => decide (e.price.grandTotal ≤ 200))).map
              resultOfEntry)).flatten) :=
  search_offers_price_break apiTwoOffers "tok" reqCapped 200 rfl (by decide)
    (by
      intro p hp es hes
      have h : [entryA, entryB] = es := by injection hes
      subst h
      decide)
    (by
      intro p hp es hes
      have h : [entryA, entryB] = es := by injection hes
      subst h
      decide)

/-- Claim C2 counterexample: the claim says a pair whose return date is
not after its departure date is silently discarded and construction
continues without an exception.  On the input below (return date one day
before departure) the constructor instead raises `ValueError`
(`Except.error`): construction yields no `SearchRequest` at all. -/
theorem mkSearchRequest_raises_cex :
    _calculate_duration "2024-01-02" "2024-01-01" = 0 ∧
    (mkSearchRequest "SVO" "JFK" [("2024-01-02", "2024-01-01")]).toOption = none := by
  constructor
  · decide
  · decide

/-- Claim C2 (amended): a date pair with a non-empty return date that is
invalid (dates `int()`/`date()` reject, or return not after departure,
i.e. the 0 duration sentinel) makes `SearchRequest` construction raise
`ValueError` (after `_calculate_duration` logs the error) instead of
being discarded; construction fails exactly when such a pair is present,
and a successful construction keeps every pair, one-way pairs as
`(departure, "")` and return pairs as `(departure, str(duration))`.
The `AsciiStr` hypothesis delimits the repertoire on which `pyInt` is
proved exact for `int()` (it is not otherwise used by the proof):
within it the failure boundary is exactly the program's, including
`int()`-tolerated whitespace, signs and underscores in date fields. -/
theorem mkSearchRequest_invalid_pair_spec (f t : String)
    (dates : List (String × String)) (pax mr : Nat) (mp : Option Int)
    (hascii : ∀ p ∈ dates, AsciiStr p.1 ∧ AsciiStr p.2) :
    ((mkSearchRequest f t dates pax mr mp).toOption = none ↔
      ∃ p ∈ dates, p.2 ≠ "" ∧ _calculate_duration p.1 p.2 = 0) ∧
    (∀ req, mkSearchRequest f t dates pax mr mp = Except.ok req →
      req.flight_date_durations = dates.map (fun p => if p.2 = "" then (p.1, "")
        else (p.1, toString (_calculate_duration p.1 p.2)))) := by
  constructor
  · rw [show (mkSearchRequest f t dates pax mr mp).toOption =
        ((postInit dates).map (fun x =>
          ({ flight_from := f, flight_to := t, flight_dates := dates,
             pax_count := pax, max_result_count := mr, max_price := mp,
             search_one_way_flights := x.1, search_return_flights := x.2.1,
             flight_date_durations := x.2.2 } : SearchRequest))).toOption from rfl,
      exceptToOption_map, Option.map_eq_none']
    exact postInit_error_iff dates
  · intro req hreq
    obtain ⟨hpost, -⟩ := mkSearchRequest_ok hreq
    exact (postInit_ok_spec _ _ _ _ hpost).1

/-- C2 witness: a batch with a one-way pair and a return date carrying a
leading space (as `csv.reader` yields for a row with a space after the
comma) constructs successfully — `int()` strips the space, the duration
is 3 — and keeps both pairs. -/
theorem mkSearchRequest_invalid_pair_spec_witness :
    reqSpace.flight_date_durations =
      [("2024-01-01", ""), ("2024-01-02", " 2024-01-05")].map
        (fun p => if p.2 = "" then (p.1, "")
          else (p.1, toString (_calculate_duration p.1 p.2))) :=
  (mkSearchRequest_invalid_pair_spec "SVO" "JFK"
    [("2024-01-01", ""), ("2024-01-02", " 2024-01-05")] 1 10 none
    (by decide)).2 reqSpace rfl

/-- Claim C3: a `SearchRequest` whose date batch contains both one-way
pairs (empty return date) and round-trip pairs makes `search_cheapest`
return the empty result list (after logging), for every API and token: it
never queries the calendar endpoint and never raises. -/
theorem search_cheapest_mixed (api : Api) (token : String) (f t : String)
    (dates : List (String × String)) (pax mr : Nat) (mp : Option Int)
    (req : SearchRequest)
    (h1 : ∃ p ∈ dates, p.2 = "") (h2 : ∃ p ∈ dates, p.2 ≠ "")
    (hreq : mkSearchRequest f t dates pax mr mp = Except.ok req) :
    search_cheapest api token req = [] := by
  obtain ⟨hpost, -⟩ := mkSearchRequest_ok hreq
  obtain ⟨-, how, hrf⟩ := postInit_ok_spec _ _ _ _ hpost
  unfold search_cheapest
  rw [if_pos (by rw [Bool.and_eq_true, how, hrf]; exact ⟨h2, h1⟩)]

/-- C3 witness: the mixed one-way/round-trip request built from its
date list yields `[]` from `search_cheapest` against a concrete API. -/
theorem search_cheapest_mixed_witness :
    search_cheapest apiTwoOffers "tok" reqMixed = [] :=
  search_cheapest_mixed apiTwoOffers "tok" "SVO" "JFK"
    [("2024-01-01", ""), ("2024-01-01", "2024-01-05")] 1 10 none reqMixed
    (by decide) (by decide) rfl

theorem mapM_flatten_skip {γ : Type} (g : γ → Except String (List SearchResult))
    (l1 l2 : List γ) (p : γ) (hp : g p = Except.ok []) :
    ((l1 ++ p :: l2).mapM g).map List.flatten =
      ((l1 ++ l2).mapM g).map List.flatten := by
  induction l1 with
  | nil =>
    rw [List.nil_append, List.nil_append, List.mapM_cons, hp]
    cases hm : l2.mapM g with
    | error e => rfl
    | ok bs => rfl
  | cons a t1 ih =>
    rw [List.cons_append, List.cons_append, List.mapM_cons, List.mapM_cons]
    cases hg : g a with
    | error e => rfl
    | ok b =>
      cases hm1 : (t1 ++ p :: l2).mapM g with
      | error e1 =>
        rw [hm1] at ih
        cases hm2 : (t1 ++ l2).mapM g with
        | error e2 =>
          rw [hm2] at ih
          simp only [Except.map] at ih
          injection ih with he
          rw [he]
        | ok bs2 =>
          rw [hm2] at ih
          cases ih
      | ok bs1 =>
        rw [hm1] at ih
        cases hm2 : (t1 ++ l2).mapM g with
        | error e2 =>
          rw [hm2] at ih
          cases ih
        | ok bs2 =>
          rw [hm2] at ih
          have hfl : bs1.flatten = bs2.flatten := by
            have h2 := ih
            simp only [Except.map] at h2
            injection h2
          show Except.ok ((b :: bs1).flatten) = Except.ok ((b :: bs2).flatten)
          rw [List.flatten_cons, List.flatten_cons, hfl]

/-- Claim C4: an API response lacking the `data` key causes no error in
either search function.  In `search_offers` the date pair whose response
lacks `data` contributes no results: the outcome equals that of the same
request without that pair.  In `search_cheapest` a `data`-less response
yields the empty result list. -/
theorem missing_data_spec :
    (∀ (api : Api) (token f t : String) (l1 l2 : List (String × String))
        (p : String × String) (pax mr : Nat) (mp : Option Int) (ow rf ow2 rf2 : Bool)
        (fdd fdd2 : List (String × String)),
      (api.offers (offersQuery
        { flight_from := f, flight_to := t, flight_dates := l1 ++ p :: l2,
          pax_count := pax, max_result_count := mr, max_price := mp,
          search_one_way_flights := ow, search_return_flights := rf,
          flight_date_durations := fdd } p token)).data = none →
      search_offers api token
        { flight_from := f, flight_to := t, flight_dates := l1 ++ p :: l2,
          pax_count := pax, max_result_count := mr, max_price := mp,
          search_one_way_flights := ow, search_return_flights := rf,
          flight_date_durations := fdd } =
      search_offers api token
        { flight_from := f, flight_to := t, flight_dates := l1 ++ l2,
          pax_count := pax, max_result_count := mr, max_price := mp,
          search_one_way_flights := ow2, search_return_flights := rf2,
          flight_date_durations := fdd2 }) ∧
    (∀ (api : Api) (token : String) (req : SearchRequest),
      (api.cheapest (cheapestQuery req token)).data = none →
      search_cheapest api token req = []) := by
  constructor
  · intro api token f t l1 l2 p pax mr mp ow rf ow2 rf2 fdd fdd2 hdata
    show ((l1 ++ p :: l2).mapM (fun (q : String × String) =>
        match (api.offers
          { originLocationCode := f, destinationLocationCode := t,
            departureDate := q.1, adults := pax, max := mr,
            returnDate := if q.2 = "" then none else some q.2,
            token := token }).data with
        | none => Except.ok []
        | some entries => collectEntries mp entries)).map List.flatten =
      ((l1 ++ l2).mapM (fun (q : String × String) =>
        match (api.offers
          { originLocationCode := f, destinationLocationCode := t,
            departureDate := q.1, adults := pax, max := mr,
            returnDate := if q.2 = "" then none else some q.2,
            token := token }).data with
        | none => Except.ok []
        | some entries => collectEntries mp entries)).map List.flatten
    apply mapM_flatten_skip
    dsimp only
    rw [show (api.offers
        { originLocationCode := f, destinationLocationCode := t,
          departureDate := p.1, adults := pax, max := mr,
          returnDate := if p.2 = "" then none else some p.2,
          token := token }).data = none from hdata]
  · intro api token req hdata
    unfold search_cheapest
    by_cases hmix : (req.search_return_flights && req.search_one_way_flights) = true
    · rw [if_pos hmix]
    · rw [if_neg hmix]
      dsimp only
      rw [hdata]

/-- C4 witness: against an API that never returns `data`, dropping the
(sole) date pair leaves `search_offers` unchanged, and `search_cheapest`
returns `[]`. -/
theorem missing_data_spec_witness :
    search_offers apiNoData "tok"
      { flight_from := "SVO", flight_to := "JFK",
        flight_dates := [] ++ ("2024-01-01", "") :: [],
        pax_count := 1, max_result_count := 10, max_price := none,
        search_one_way_flights := true, search_return_flights := false,
        flight_date_durations := [("2024-01-01", "")] } =
    search_offers apiNoData "tok"
      { flight_from := "SVO", flight_to := "JFK", flight_dates := [] ++ [],
        pax_count := 1, max_result_count := 10, max_price := none,
        search_one_way_flights := true, search_return_flights := false,
        flight_date_durations := [] } ∧
    search_cheapest apiNoData "tok" reqJan = [] :=
  ⟨missing_data_spec.1 apiNoData "tok" "SVO" "JFK" [] [] ("2024-01-01", "") 1 10 none
      true false true false [("2024-01-01", "")] [] rfl,
    missing_data_spec.2 apiNoData "tok" reqJan rfl⟩

/-- Claim C5: `_calculate_duration` returns the number of days from
departure to return (the `n` with `nextDay^[n] departure = return`) when
both strings parse as valid calendar dates and that count is positive,
and returns the 0 sentinel (after logging) when the return date equals
the departure date, when the return date lies days before the departure
date, or when either string fails to parse.  The `AsciiStr` hypotheses
delimit the repertoire on which `parseDate` is proved to fail exactly
when `int()`/`date()` raise (they are not otherwise used by the proof):
within it, `parseDate _ = none` is the program's own parse-failure set,
which tolerates surrounding whitespace, a sign and digit-group
underscores in each dash-separated field. -/
theorem calculate_duration_spec (ds rs : String)
    (hds : AsciiStr ds) (hrs : AsciiStr rs) :
    (∀ dd rd, parseDate ds = some dd → parseDate rs = some rd →
      (∀ n, 0 < n → nextDay^[n] dd = rd → _calculate_duration ds rs = n) ∧
      (rd = dd → _calculate_duration ds rs = 0) ∧
      (∀ n, 0 < n → nextDay^[n] rd = dd → _calculate_duration ds rs = 0)) ∧
    ((parseDate ds = none ∨ parseDate rs = none) → _calculate_duration ds rs = 0) := by
  constructor
  · intro dd rd hd hr
    have hvd := (parseDate_valid hd).1
    have hvr := (parseDate_valid hr).1
    refine ⟨?_, ?_, ?_⟩
    · intro n hn hreach
      have hord := (toOrdinal_iterate dd hvd n).1
      rw [hreach] at hord
      unfold _calculate_duration
      rw [hd, hr]
      show (if (toOrdinal rd : Int) - (toOrdinal dd : Int) ≤ 0 then 0
        else ((toOrdinal rd : Int) - (toOrdinal dd : Int)).toNat) = n
      rw [if_neg (by omega)]
      omega
    · intro heq
      subst heq
      unfold _calculate_duration
      rw [hd, hr]
      show (if (toOrdinal rd : Int) - (toOrdinal rd : Int) ≤ 0 then 0
        else ((toOrdinal rd : Int) - (toOrdinal rd : Int)).toNat) = 0
      rw [if_pos (by omega)]
    · intro n hn hreach
      have hord := (toOrdinal_iterate rd hvr n).1
      rw [hreach] at hord
      unfold _calculate_duration
      rw [hd, hr]
      show (if (toOrdinal rd : Int) - (toOrdinal dd : Int) ≤ 0 then 0
        else ((toOrdinal rd : Int) - (toOrdinal dd : Int)).toNat) = 0
      rw [if_pos (by omega)]
  · intro hfail
    unfold _calculate_duration
    rcases hfail with h | h
    · rw [h]
    · rw [h]
      cases parseDate ds <;> rfl

/-- C5 witness: a return date with a leading space still parses
(`int()` strips it); 2024-01-02 to 2024-01-05 is three days forward and
the computed duration is 3. -/
theorem calculate_duration_spec_witness :
    parseDate " 2024-01-05" = some ⟨2024, 1, 5⟩ ∧
    nextDay^[3] ⟨2024, 1, 2⟩ = (⟨2024, 1, 5⟩ : Date) ∧
    _calculate_duration "2024-01-02" " 2024-01-05" = 3 :=
  ⟨by decide, by decide,
    ((calculate_duration_spec "2024-01-02" " 2024-01-05" (by decide) (by decide)).1
      ⟨2024, 1, 2⟩ ⟨2024, 1, 5⟩ (by decide) (by decide)).1 3 (by decide) (by decide)⟩

/-- Claim C6 counterexample: the claim quantifies over every day count
`n ≥ 0`, but "9999-12-31" is a well-formed start date for which a
two-day range runs past `date.max`: the date addition raises
`OverflowError` instead of returning two formatted dates. -/
theorem date_range_overflow_cex :
    parseDate "9999-12-31" = some ⟨9999, 12, 31⟩ ∧
    _date_range "9999-12-31" 2 = Except.error "OverflowError" := by
  constructor
  · decide
  · rfl

/-- Claim C6 (amended): for every well-formed start date `s` and day
count `n ≥ 0` such that all `n` generated dates stay within the
supported calendar (year at most 9999), `_date_range s n` returns
exactly the `n` consecutive calendar dates beginning at `s` (the `i`-th
being `i` applications of `nextDay`), each formatted `YYYY-MM-DD`; past
9999-12-31 the underlying date addition instead raises `OverflowError`.
In particular `_date_range "2024-01-01" 3` is
`["2024-01-01", "2024-01-02", "2024-01-03"]` (see the witness). -/
theorem date_range_spec (s : String) (n : Nat) (base : Date)
    (hp : parseDate s = some base)
    (hle : ∀ i, i < n → (nextDay^[i] base).year ≤ 9999) :
    _date_range s n =
      Except.ok ((List.range n).map (fun i => formatDate (nextDay^[i] base))) := by
  unfold _date_range
  rw [hp]
  show (match (List.range n).mapM (fun i => (dateAdd base i).map formatDate) with
    | some l => Except.ok l
    | none => Except.error "OverflowError") = _
  rw [mapM_option_eq_map _ _ (fun i => formatDate (nextDay^[i] base))]
  intro i hi
  unfold dateAdd
  rw [if_pos (hle i (List.mem_range.mp hi))]
  rfl

/-- C6 witness: the spec's concrete instance. -/
theorem date_range_spec_witness :
    _date_range "2024-01-01" 3 = Except.ok ["2024-01-01", "2024-01-02", "2024-01-03"] := by
  rw [date_range_spec "2024-01-01" 3 ⟨2024, 1, 1⟩ (by decide) (by decide)]
  rfl

/-- Claim C7 counterexample: two distinct requests (different dates, so
they coexist as dict keys) share the pair SVO/JFK.  Both get counter 1,
so both write `SVO-JFK-1.json`; after the run the single file for the
pair holds only the second request's raw entries — the entry returned
for the first request (`entryA`) is gone, contradicting "that file
contains the raw unmodified API entries returned for that pair". -/
theorem do_search_overwrite_cex :
    reqKeyEq reqJan reqFeb = false ∧
    do_search_files none
        [(reqJan, [resultOfEntry entryA]), (reqFeb, [resultOfEntry entryB])] =
      [("SVO-JFK-1.json", [RawEntry.offers entryB])] ∧
    RawEntry.offers entryA ≠ RawEntry.offers entryB := by
  refine ⟨by decide, by decide, by decide⟩

/-- Claim C7 (amended): for every functor result dict (pairwise-distinct
keys, as in any Python dict), one run of `do_search` leaves exactly one
file per distinct output file name `origin-destination-1.json` (every
counter value is 1), in first-occurrence order; and each file name reads
back the raw entries of the offers of the LAST request bearing that name
in iteration order — not the union of the entries of all requests with
that origin/destination pair. -/
theorem do_search_files_spec (results : List (SearchRequest × List SearchResult))
    (hkeys : results.Pairwise (fun a b => reqKeyEq a.1 b.1 = false)) :
    (do_search_files none results).map (fun q => q.1) =
      dedupFirst (results.map (fun it => resultsFileName it.1 1)) ∧
    ∀ x, dirLookup (do_search_files none results) x = lastNamed results x := by
  have hsimple : do_search_files none results = results.foldl simpleStep [] :=
    doSearch_foldl_simple results [] [] (fun it hit => rfl) hkeys
  constructor
  · rw [hsimple, names_foldl_simple]
    show _ = (results.map (fun it => resultsFileName it.1 1)).foldl
      (fun acc n => if n ∈ acc then acc else acc ++ [n]) []
    rw [List.foldl_map]
    rfl
  · intro x
    rw [hsimple, dirLookup_foldl_simple]
    cases lastNamed results x <;> rfl

/-- C7 witness: the amended statement evaluated on the two-request dict
of the counterexample input. -/
theorem do_search_files_spec_witness :
    (do_search_files none
        [(reqJan, [resultOfEntry entryA]), (reqFeb, [resultOfEntry entryB])]).map
        (fun q => q.1) =
      dedupFirst ([(reqJan, [resultOfEntry entryA]),
        (reqFeb, [resultOfEntry entryB])].map (fun it => resultsFileName it.1 1)) ∧
    ∀ x, dirLookup (do_search_files none
        [(reqJan, [resultOfEntry entryA]), (reqFeb, [resultOfEntry entryB])]) x =
      lastNamed [(reqJan, [resultOfEntry entryA]), (reqFeb, [resultOfEntry entryB])] x :=
  do_search_files_spec
    [(reqJan, [resultOfEntry entryA]), (reqFeb, [resultOfEntry entryB])] (by decide)

/-- Claim C8: the `last_search` directory is deleted if present and
recreated empty before any result file is written, so the outcome of a
run is independent of the directory's prior state; in particular, after
two consecutive runs only the second run's output files remain. -/
theorem do_search_files_fresh (prior prior2 : Option SearchDir)
    (r1 r2 : List (SearchRequest × List SearchResult)) :
    do_search_files (some (do_search_files prior r1)) r2 = do_search_files none r2 ∧
    do_search_files prior2 r2 = do_search_files none r2 :=
  ⟨rfl, by cases prior2 <;> rfl⟩

/-- Claim C9: `_do_search_one_way` immediately shadows its `token`
argument with a freshly obtained `auth()` token, so with identical
external API behaviour its result does not depend on the token passed
in. -/
theorem do_search_one_way_token_independent (api : Api) (t1 t2 : String)
    (start_date : String) (duration : Nat) (origin : String)
    (destinations : List String) :
    _do_search_one_way api t1 start_date duration origin destinations =
      _do_search_one_way api t2 start_date duration origin destinations := rfl

/-- Claim C10: when `max_price` is `None` or `0` it is falsy, so the
price filter is inactive: `search_offers` appends every entry of every
returned `data` list regardless of price, and `search_cheapest` sends no
`maxPrice` query parameter.  (For truthy values `search_cheapest` does
send `maxPrice`, and C1 shows the `search_offers` filter in effect.) -/
theorem max_price_falsy_spec (api : Api) (token : String) (req : SearchRequest)
    (hmp : req.max_price = none ∨ req.max_price = some 0)
    (hwf : ∀ p ∈ req.flight_dates, ∀ es,
      (api.offers (offersQuery req p token)).data = some es → ∀ e ∈ es, WFEntry e) :
    search_offers api token req = Except.ok
      ((req.flight_dates.map (fun p =>
        match (api.offers (offersQuery req p token)).data with
        | none => []
        | some es => es.map resultOfEntry)).flatten) ∧
    (cheapestQuery req token).maxPrice = none := by
  have hfalsy : mpTruthy req.max_price = false := by
    rcases hmp with h | h <;> rw [h] <;> rfl
  constructor
  · unfold search_offers
    rw [mapM_except_eq_map _ _ (fun p =>
        match (api.offers (offersQuery req p token)).data with
        | none => []
        | some es => es.map resultOfEntry)]
    · rfl
    · intro p hp
      dsimp only
      cases hdata : (api.offers (offersQuery req p token)).data with
      | none => rfl
      | some es =>
        show collectEntries req.max_price es = _
        rw [collectEntries_of_falsy req.max_price hfalsy es (hwf p hp es hdata)]
  · show (if mpTruthy req.max_price then req.max_price else none) = none
    rw [hfalsy]
    rfl

/-- C10 witness: with `max_price = none` both offers (prices 100 and
500) are collected and the calendar query carries no `maxPrice`. -/
theorem max_price_falsy_spec_witness :
    search_offers apiTwoOffers "tok" reqJan = Except.ok
      ((reqJan.flight_dates.map (fun p =>
        match (apiTwoOffers.offers (offersQuery reqJan p "tok")).data with
        | none => []
        | some es => es.map resultOfEntry)).flatten) ∧
    (cheapestQuery reqJan "tok").maxPrice = none :=
  max_price_falsy_spec apiTwoOffers "tok" reqJan (Or.inl rfl)
    (by
      intro p hp es hes
      have h : [entryA, entryB] = es := by injection hes
      subst h
      decide)
